import Mathlib

/-!
Verification development for the transient circuit simulator
(`simulador/__init__.py`, `simulador/componentes.py`).

The Python source is shallowly embedded: machine floats are modelled by `ℚ`
(every operation the embedded fragments perform is exact field arithmetic,
comparisons and `%`); the transcendental functions `np.exp` / `np.sin`, the
dense linear solve `np.linalg.solve` and the numpy random stream are opaque
to the properties below and are passed as explicit function parameters.
Python exceptions are modelled by `Except SimError` / `Option`, `while`
loops by fuel-indexed recursion, and the mutable state of `Circuito.run`
by explicit state records.
-/

attribute [local semireducible] Rat.add Rat.sub Rat.mul Rat.inv

namespace Simulador

/-- Errors surfaced by the simulator (Python exceptions). -/
inductive SimError where
  | missingGround
  | newtonDiverged
  | notImplemented
  | assertionFailed
  | indexOut
  | outOfFuel
deriving DecidableEq

/-- Ground node label (`GND = '0'` in `simulador/__init__.py`). -/
def GND : String := "0"

/-- Conductance matrix `Gn`, indexed by system-vector positions. -/
def GMat : Type := ℕ → ℕ → ℚ

/-- Current vector `I`. -/
def IVec : Type := ℕ → ℚ

/-- The all-zero conductance matrix (`np.zeros((n, n))`). -/
def zeroG : GMat := fun _ _ => 0

/-- The all-zero current vector (`np.zeros((n, 1))`). -/
def zeroI : IVec := fun _ => 0

/-- `Gn[r, c] += v` -/
def addG (G : GMat) (r c : ℕ) (v : ℚ) : GMat :=
  fun i j => if i = r ∧ j = c then G i j + v else G i j

/-- `I[r] += v` -/
def addI (Iv : IVec) (r : ℕ) (v : ℚ) : IVec :=
  fun i => if i = r then Iv i + v else Iv i

/-- `Resistor.estampaBE` (componentes.py lines 244-253): adds `±1/valor`
at the four positions `(a,a) (a,b) (b,a) (b,b)`. -/
def resistorEstampaBE (valor : ℚ) (posA posB : ℕ) (Gn : GMat) (Iv : IVec) :
    GMat × IVec :=
  (addG (addG (addG (addG Gn posA posA (1 / valor))
      posA posB (-(1 / valor)))
      posB posA (-(1 / valor)))
      posB posB (1 / valor), Iv)

/-- `FonteCorrente.estampaBE` specialised to a DC level (componentes.py
lines 997-1005): `I[a] -= corrente; I[b] += corrente`. -/
def fonteCorrenteEstampaDC (corrente : ℚ) (posA posB : ℕ)
    (Gn : GMat) (Iv : IVec) : GMat × IVec :=
  (Gn, addI (addI Iv posA (-corrente)) posB corrente)

/-- `FonteTensaoTensao.estampaBE` (componentes.py lines 520-535), the VCVS
stamp with terminals `a b`, controlling terminals `c d`, gain `valor` and
auxiliary index `jx`. -/
def fonteTensaoTensaoEstampaBE (valor : ℚ) (posA posB posC posD jx : ℕ)
    (Gn : GMat) (Iv : IVec) : GMat × IVec :=
  (addG (addG (addG (addG (addG (addG Gn
      posA jx 1)
      posB jx (-1))
      jx posC valor)
      jx posD (-valor))
      jx posA (-1))
      jx posB 1, Iv)

/-- `FonteCorrenteTensao.estampaBE` (componentes.py lines 623-634), the VCCS
stamp: `G[a,c]+=gm; G[a,d]-=gm; G[b,c]-=gm; G[b,d]+=gm`. -/
def fonteCorrenteTensaoEstampaBE (valor : ℚ) (posA posB posC posD : ℕ)
    (Gn : GMat) (Iv : IVec) : GMat × IVec :=
  (addG (addG (addG (addG Gn
      posA posC valor)
      posA posD (-valor))
      posB posC (-valor))
      posB posD valor, Iv)

/-- Python float `x % y` (sign of the result follows the divisor):
`x - y * ⌊x / y⌋`. -/
def pymod (x y : ℚ) : ℚ := x - y * ⌊x / y⌋

/-- PULSE waveform parameters as parsed by `processa_argumentos_fonte`
(componentes.py lines 103-112). -/
structure PulseP where
  amplitude1 : ℚ
  amplitude2 : ℚ
  atraso : ℚ
  tempoSubida : ℚ
  tempoDescida : ℚ
  tempoLigado : ℚ
  periodo : ℚ
  ciclos : ℚ
deriving DecidableEq

/-- The `PULSE` branch of `Componente.calcular_valor_fonte`
(componentes.py lines 129-170).  `passo` is the component's current step
size `self.passo`. -/
def calcularValorFontePulse (p : PulseP) (passo t : ℚ) : ℚ :=
  let T1 := p.amplitude1
  let T2 := p.amplitude2
  let TD := p.atraso
  let PER := p.periodo
  let TR := if p.tempoSubida > 0 then p.tempoSubida else passo
  let TF := if p.tempoDescida > 0 then p.tempoDescida else passo
  let PW := p.tempoLigado
  let TTOTAL := TD + p.ciclos * PER
  if t < TD then T1
  else if p.ciclos > 0 ∧ t ≥ TTOTAL then T1
  else
    let tCycle := pymod (t - TD) PER
    if tCycle < TR then T1 + (T2 - T1) * (tCycle / TR)
    else if tCycle < TR + PW then T2
    else if tCycle < TR + PW + TF then T2 - (T2 - T1) * ((tCycle - (TR + PW)) / TF)
    else T1

/-- The PULSE waveform as worded by the specification: `v1` before the
delay, `v1` after `cycles` periods have elapsed (when `cycles > 0`),
otherwise piecewise on `τ = (t − delay) mod period`: the linear ramp
`v1 → v2` on `[0, t_rise')`, `v2` on `[t_rise', t_rise' + t_on)`, the
linear ramp `v2 → v1` on `[t_rise' + t_on, t_rise' + t_on + t_fall')`,
and `v1` on the remainder of the period, where `t_rise'` is `t_rise` when
positive and the current step size otherwise (likewise `t_fall'`). -/
def pulseSpec (p : PulseP) (passoAtual t : ℚ) : ℚ :=
  let tr := if p.tempoSubida > 0 then p.tempoSubida else passoAtual
  let tf := if p.tempoDescida > 0 then p.tempoDescida else passoAtual
  if t < p.atraso then p.amplitude1
  else if p.ciclos > 0 ∧ t ≥ p.atraso + p.ciclos * p.periodo then p.amplitude1
  else
    let tau := pymod (t - p.atraso) p.periodo
    if 0 ≤ tau ∧ tau < tr then
      p.amplitude1 + (p.amplitude2 - p.amplitude1) * (tau / tr)
    else if tr ≤ tau ∧ tau < tr + p.tempoLigado then p.amplitude2
    else if tr + p.tempoLigado ≤ tau ∧ tau < tr + p.tempoLigado + tf then
      p.amplitude2 + (p.amplitude1 - p.amplitude2) * ((tau - (tr + p.tempoLigado)) / tf)
    else p.amplitude1

/-- SIN waveform parameters as parsed by `processa_argumentos_fonte`
(componentes.py lines 94-102). -/
structure SinP where
  nivelDc : ℚ
  amplitude : ℚ
  frequencia : ℚ
  atraso : ℚ
  amortecimento : ℚ
  defasagem : ℚ
  ciclos : ℚ
deriving DecidableEq

/-- Parsed waveform arguments of an independent source
(`processa_argumentos_fonte`, componentes.py lines 90-112). -/
inductive FonteArgs where
  | dc (nivel : ℚ)
  | seno (p : SinP)
  | pulso (p : PulseP)
deriving DecidableEq

/-- MOSFET channel type (`'N'` / `'P'`). -/
inductive MosTipo where
  | nmos
  | pmos
deriving DecidableEq

/-- The closed set of component variants of `componentes.py`.  Each
constructor carries the fields the corresponding class constructor stores. -/
inductive Componente where
  | resistor (name : String) (nos : List String) (valor : ℚ)
  | indutor (name : String) (nos : List String) (valor ic : ℚ)
  | capacitor (name : String) (nos : List String) (valor ic : ℚ)
  | resistorNaoLinear (name : String) (nos : List String)
      (v1 i1 v2 i2 v3 i3 v4 i4 : ℚ)
  | fonteTensaoTensao (name : String) (nos : List String) (valor : ℚ)
  | fonteCorrenteCorrente (name : String) (nos : List String) (valor : ℚ)
  | fonteCorrenteTensao (name : String) (nos : List String) (valor : ℚ)
  | fonteTensaoCorrente (name : String) (nos : List String) (valor : ℚ)
  | diodo (name : String) (nos : List String)
  | ampOp (name : String) (nos : List String)
  | mosfet (name : String) (nos : List String) (tipo : MosTipo)
      (w l lbda k vth : ℚ)
  | fonteCorrente (name : String) (nos : List String) (args : FonteArgs)
  | fonteTensao (name : String) (nos : List String) (args : FonteArgs)
deriving DecidableEq

/-- The node-label list of a component (`self.nos`). -/
def Componente.nos : Componente → List String
  | .resistor _ ns _ => ns
  | .indutor _ ns _ _ => ns
  | .capacitor _ ns _ _ => ns
  | .resistorNaoLinear _ ns _ _ _ _ _ _ _ _ => ns
  | .fonteTensaoTensao _ ns _ => ns
  | .fonteCorrenteCorrente _ ns _ => ns
  | .fonteCorrenteTensao _ ns _ => ns
  | .fonteTensaoCorrente _ ns _ => ns
  | .diodo _ ns => ns
  | .ampOp _ ns => ns
  | .mosfet _ ns _ _ _ _ _ _ => ns
  | .fonteCorrente _ ns _ => ns
  | .fonteTensao _ ns _ => ns

/-- The `_linear` class attribute of each variant. -/
def Componente.linear : Componente → Bool
  | .resistorNaoLinear _ _ _ _ _ _ _ _ _ _ => false
  | .diodo _ _ => false
  | .mosfet _ _ _ _ _ _ _ _ => false
  | _ => true

/-- The `_num_nos_mod` class attribute of each variant (number of extra
MNA variables). -/
def Componente.numNosMod : Componente → ℕ
  | .indutor _ _ _ _ => 1
  | .fonteTensaoTensao _ _ _ => 1
  | .fonteCorrenteCorrente _ _ _ => 1
  | .fonteTensaoCorrente _ _ _ => 2
  | .ampOp _ _ => 1
  | .fonteTensao _ _ _ => 1
  | _ => 0

/-- `Componente.estampaFE` (componentes.py lines 196-205): the base-class
method raises `NotImplementedError`, and no subclass overrides it. -/
def Componente.estampaFE (_c : Componente) (_Gn : GMat) (_Iv : IVec)
    (_t : ℚ) (_tensoes : List ℚ) : Except SimError (GMat × IVec) :=
  .error .notImplemented

/-- `Componente.estampaTrap` (componentes.py lines 185-194): the base-class
method raises `NotImplementedError`, and no subclass overrides it. -/
def Componente.estampaTrap (_c : Componente) (_Gn : GMat) (_Iv : IVec)
    (_t : ℚ) (_tensoes : List ℚ) : Except SimError (GMat × IVec) :=
  .error .notImplemented

/-- One step of the inner loop of `Circuito.__popular_nos`
(`for no in nos: ...`, __init__.py lines 80-86): append unseen labels,
record whether ground was seen. -/
def popularNosNo (acc : List String × Bool) (no : String) :
    List String × Bool :=
  ((if no ∈ acc.1 then acc.1 else acc.1 ++ [no]), acc.2 || (no == GND))

/-- The per-component step of `Circuito.__popular_nos`. -/
def popularNosComp (acc : List String × Bool) (c : Componente) :
    List String × Bool :=
  c.nos.foldl popularNosNo acc

/-- `Circuito.__popular_nos` (__init__.py lines 72-88): the node list starts
with ground at position 0; raises `MissingGround` when no component
references `"0"`. -/
def popularNos (comps : List Componente) : Except SimError (List String) :=
  let acc := comps.foldl popularNosComp ([GND], false)
  if acc.2 then .ok acc.1 else .error .missingGround

/-- A component with its bound matrix positions: `_posicao_nos` and
`_nos_mod` (__init__.py lines 101-111). -/
structure Bound where
  comp : Componente
  pos : List ℕ
  mods : List ℕ
deriving DecidableEq

/-- The index-binding loop of `Circuito.run` (__init__.py lines 101-111):
terminal positions are looked up in the current node list, then a block of
`num_nos_mod` fresh tail indices is reserved and fresh labels are appended.
(The appended label is abbreviated to `"J" ++ index`; the source also
suffixes the first token of `str(com)`, which nothing below inspects.) -/
def bindComps : List Componente → List String → List Bound × List String
  | [], nos => ([], nos)
  | c :: rest, nos =>
    let pos := c.nos.map (fun s => nos.indexOf s)
    let mods := (List.range c.numNosMod).map (fun i => nos.length + i)
    let nos' := nos ++ (List.range c.numNosMod).map
      (fun i => "J" ++ toString (nos.length + i))
    let out := bindComps rest nos'
    (⟨c, pos, mods⟩ :: out.1, out.2)

/-- `N_MAX` (__init__.py line 119). -/
def N_MAX : ℕ := 20

/-- `M_MAX` (__init__.py line 120). -/
def M_MAX : ℕ := 100

/-- `STEP_FACTOR = 1e9` (__init__.py line 121). -/
def STEP_FACTOR : ℚ := 1000000000

/-- `TOLERANCIA = 0.00001` (__init__.py line 122). -/
def TOLERANCIA : ℚ := 1 / 100000

/-- The simulation method `tipo_simulacao` dispatched on in the stamping
loop (__init__.py lines 164-169). -/
inductive TipoSim where
  | be
  | fe
  | trap
deriving DecidableEq

/-- Python `abs` on a rational value. -/
def qabs (x : ℚ) : ℚ := if x < 0 then -x else x

/-- Python binary `max` on rational values. -/
def qmax (x y : ℚ) : ℚ := if x ≤ y then y else x

/-- The convergence measure of __init__.py line 180:
`max([abs(i-j) for i, j in zip(tensoes, previous)])`.  `zip` truncates to
the shorter list; the entries are nonnegative, so folding `qmax` from `0`
agrees with Python's `max` on every nonempty zip. -/
def tolOf (x g : List ℚ) : ℚ :=
  ((x.zip g).map (fun p => qabs (p.1 - p.2))).foldl qmax 0

/-- The claim's convergence measure: the maximum of `|x[k] − guess[k]|`
over ALL entries of `x` (out-of-range guess entries read as `0`; any value
in `[0, 1)` gives the same verdicts below). -/
def claimDelta (x g : List ℚ) : ℚ :=
  ((List.range x.length).map
    (fun k => qabs (x.getD k 0 - g.getD k 0))).foldl qmax 0

/-- State of the Newton–Raphson loop of `Circuito.run`
(__init__.py lines 141-188): the current guess `previous`, the counters
`n_guesses` and `n_newton_raphson`, and the position in the seeded random
stream. -/
structure NState where
  previous : List ℚ
  nGuesses : ℕ
  nNewton : ℕ
  ctr : ℕ
deriving DecidableEq

/-- The stamping loop and linear solve of one Newton iteration
(__init__.py lines 156-177), abstracted over the Backward Euler assembly:
`solve hist passo t previous` stands for zeroing `Gn`/`I`, stamping every
component with `estampaBE` and solving the reduced system, returning the
flattened solution `y` (so that `tensoes = 0 :: y`).  For `FE` and `TRAP`
the first component's `estampaFE`/`estampaTrap` raises
`NotImplementedError`; with no components nothing is stamped. -/
def montaResolve {H : Type} (solve : H → ℚ → ℚ → List ℚ → Except SimError (List ℚ))
    (tipo : TipoSim) (temComp : Bool) (hist : H) (passoCur tempo : ℚ)
    (previous : List ℚ) : Except SimError (List ℚ) :=
  match tipo with
  | .be => solve hist passoCur tempo previous
  | .fe => if temComp then .error .notImplemented
           else solve hist passoCur tempo previous
  | .trap => if temComp then .error .notImplemented
             else solve hist passoCur tempo previous

/-- The Newton–Raphson `while not stop_newton_raphson` loop of
`Circuito.run` (__init__.py lines 141-188), fuel-indexed.
`randF seed ctr n` models the `n`-vector drawn by `np.random.rand(n)` at
position `ctr` of the stream seeded with `seed`.  Returns the accepted
`tensoes` together with the final loop state (whose `previous` is the last
value of the Python variable). -/
def newtonLoop {H : Type} (solve : H → ℚ → ℚ → List ℚ → Except SimError (List ℚ))
    (randF : ℕ → ℕ → ℕ → List ℚ) (seed : ℕ) (naoLinear : Bool) (numVars : ℕ)
    (tipo : TipoSim) (temComp : Bool) (hist : H) (passoCur tempo : ℚ) :
    ℕ → NState → Except SimError (List ℚ × NState)
  | 0, _ => .error .outOfFuel
  | fuel + 1, st =>
    match (if naoLinear = true ∧ st.nNewton = N_MAX then
             (if st.nGuesses ≥ M_MAX then none
              else some ⟨randF seed st.ctr numVars, st.nGuesses + 1, 0,
                st.ctr + 1⟩)
           else some st : Option NState) with
    | none => .error .newtonDiverged
    | some st1 =>
      match montaResolve solve tipo temComp hist passoCur tempo st1.previous with
      | .error e => .error e
      | .ok y =>
        let tensoes := 0 :: y
        let tol := tolOf tensoes st1.previous
        if naoLinear = true ∧ tol > TOLERANCIA then
          newtonLoop solve randF seed naoLinear numVars tipo temComp hist
            passoCur tempo fuel
            ⟨tensoes, st1.nGuesses, st1.nNewton + 1, st1.ctr⟩
        else .ok (tensoes, st1)

/-- State threaded through the inner `while passo_interno_atual <
max_internal_step` loop (__init__.py lines 138-193).  `count` is a ghost
field recording how many Newton-driven sub-solves were executed. -/
structure IState (H : Type) where
  previous : List ℚ
  ctr : ℕ
  hist : H
  tensoes : List ℚ
  count : ℕ

/-- The inner loop of `Circuito.run` (__init__.py lines 138-193): run the
Newton loop, then call `update(tensoes)` on every component (abstracted as
`updAll` on the history state `hist`). -/
def innerLoop {H : Type} (solve : H → ℚ → ℚ → List ℚ → Except SimError (List ℚ))
    (updAll : H → List ℚ → H) (randF : ℕ → ℕ → ℕ → List ℚ) (nFuel : ℕ)
    (naoLinear : Bool) (numVars : ℕ) (tipo : TipoSim) (temComp : Bool)
    (passoCur tempo : ℚ) : ℕ → IState H → Except SimError (IState H)
  | 0, s => .ok s
  | k + 1, s =>
    match newtonLoop solve randF 512 naoLinear numVars tipo temComp s.hist
        passoCur tempo nFuel ⟨s.previous, 0, 0, s.ctr⟩ with
    | .error e => .error e
    | .ok (tensoes, nst) =>
      innerLoop solve updAll randF nFuel naoLinear numVars tipo temComp
        passoCur tempo k
        ⟨nst.previous, nst.ctr, updAll s.hist tensoes, tensoes, s.count + 1⟩

/-- `Resultado.append` (__init__.py lines 397-400): `assert len(resultado)
== len(self.__nos)`, then append the time and the vector. -/
def resAppend (nosLen : ℕ) (resT : List ℚ) (resV : List (List ℚ))
    (t : ℚ) (v : List ℚ) : Except SimError (List ℚ × List (List ℚ)) :=
  if v.length = nosLen then .ok (resT ++ [t], resV ++ [v])
  else .error .assertionFailed

/-- Ghost record of one recorded step: its time, the step size used for
stamping, and the number of inner sub-solves executed. -/
structure StepRec where
  tempo : ℚ
  passoUsado : ℚ
  inner : ℕ
deriving DecidableEq

/-- State of the outer `while tempo < self.tempo_total` loop
(__init__.py lines 128-198).  `maxInternal` models the Python variable
`max_internal_step`, which is assigned only in the `tempo == 0` branch;
`trace` is a ghost event log. -/
structure OState (H : Type) where
  tempo : ℚ
  ctr : ℕ
  hist : H
  maxInternal : ℕ
  resT : List ℚ
  resV : List (List ℚ)
  trace : List StepRec

/-- The outer time loop of `Circuito.run` (__init__.py lines 128-198),
fuel-indexed.  At `tempo == 0` the step becomes `passo / STEP_FACTOR` and
`max_internal_step` is set to `1`; in the `else` branch only the step is
reassigned.  Each recorded step draws a fresh random guess of size
`numVars`, runs the inner loop, appends `(tempo, tensoes[1:])` to the
result and advances `tempo += passo`. -/
def outerLoop {H : Type} (solve : H → ℚ → ℚ → List ℚ → Except SimError (List ℚ))
    (updAll : H → List ℚ → H) (randF : ℕ → ℕ → ℕ → List ℚ) (nFuel : ℕ)
    (naoLinear : Bool) (numVars nosLen : ℕ) (tipo : TipoSim) (temComp : Bool)
    (tempoTotal passo : ℚ) : ℕ → OState H → Except SimError (OState H)
  | 0, s => if s.tempo < tempoTotal then .error .outOfFuel else .ok s
  | fuel + 1, s =>
    if s.tempo < tempoTotal then
      let passoCur := if s.tempo = 0 then passo / STEP_FACTOR else passo
      let maxI := if s.tempo = 0 then 1 else s.maxInternal
      let previous := randF 512 s.ctr numVars
      match innerLoop solve updAll randF nFuel naoLinear numVars tipo temComp
          passoCur s.tempo maxI ⟨previous, s.ctr + 1, s.hist, [], 0⟩ with
      | .error e => .error e
      | .ok is =>
        match resAppend nosLen s.resT s.resV s.tempo is.tensoes.tail with
        | .error e => .error e
        | .ok rs =>
          outerLoop solve updAll randF nFuel naoLinear numVars nosLen tipo
            temComp tempoTotal passo fuel
            ⟨s.tempo + passo, is.ctr, is.hist, maxI, rs.1, rs.2,
              s.trace ++ [⟨s.tempo, passoCur, is.count⟩]⟩
    else .ok s

/-- The observable outcome of `Circuito.run`: the `Resultado` fields
(node labels without ground, times, voltage vectors) plus the ghost step
trace. -/
structure RunOut where
  nosRes : List String
  resT : List ℚ
  resV : List (List ℚ)
  trace : List StepRec
deriving DecidableEq

/-- `Circuito.run` (__init__.py lines 90-203): node discovery, index
binding, `np.random.seed(512)` (the ambient generator state `rng` is
discarded), then the transient loop.  `passoInterno` is the circuit's
`passo_interno` constructor parameter.  The Backward Euler assembly and
the component `update` calls are the explicit parameters `solve` and
`updAll`; `randF` is the seeded random stream. -/
def run {H : Type} (solve : H → ℚ → ℚ → List ℚ → Except SimError (List ℚ))
    (updAll : H → List ℚ → H) (randF : ℕ → ℕ → ℕ → List ℚ)
    (oFuel nFuel : ℕ) (comps : List Componente) (tipo : TipoSim)
    (tempoTotal passo : ℚ) (passoInterno : ℕ) (hist0 : H) (rng : ℕ × ℕ) :
    Except SimError RunOut :=
  match popularNos comps with
  | .error e => .error e
  | .ok nos0 =>
    let naoLinear := comps.any (fun c => !c.linear)
    let nosAll := (bindComps comps nos0).2
    let numVars := nosAll.length - 1
    let temComp := !comps.isEmpty
    match outerLoop solve updAll randF nFuel naoLinear numVars
        nosAll.tail.length tipo temComp tempoTotal passo oFuel
        ⟨0, 0, hist0, 0, [], [], []⟩ with
    | .error e => .error e
    | .ok s => .ok ⟨nosAll.tail, s.resT, s.resV, s.trace⟩

/-- Diode saturation current `3.7751345e-14` (componentes.py line 740). -/
def diodoIs : ℚ := 37751345 / 10 ^ 21

/-- Diode thermal voltage `25e-3` (componentes.py line 740). -/
def diodoVt : ℚ := 25 / 1000

/-- `Diodo.estampaBE` (componentes.py lines 731-755).  The guess vector is
read at the two bound terminal positions (`tensoes[no_a]`,
`tensoes[no_b]`); an out-of-range read is Python's `IndexError`, modelled
by `none`.  `expQ` stands for `np.exp`. -/
def diodoEstampaBE (expQ : ℚ → ℚ) (posA posB : ℕ) (Gn : GMat) (Iv : IVec)
    (_t : ℚ) (tensoes : List ℚ) : Option (GMat × IVec) :=
  match tensoes.get? posA, tensoes.get? posB with
  | some va, some vb =>
    let vab0 := va - vb
    let vab := if vab0 > 9 / 10 then 9 / 10 else vab0
    let g0 := diodoIs * expQ (vab / diodoVt) / diodoVt
    let idv := diodoIs * (expQ (vab / diodoVt) - 1) - g0 * vab
    let gi1 := if g0 ≠ 0 then resistorEstampaBE (1 / g0) posA posB Gn Iv
               else (Gn, Iv)
    some (fonteCorrenteEstampaDC idv posA posB gi1.1 gi1.2)
  | _, _ => none

/-- `Mosfet.estampaBE` (componentes.py lines 868-957).  Reads the guess at
the bound drain/gate/source positions, then stamps the companion model:
the transconductance VCCS, the equivalent DC current source, and (when
`gds ≠ 0`) the output conductance.  Returns the updated matrices and the
new `first_iter` flag. -/
def mosfetEstampaBE (tipo : MosTipo) (beta lbda vth : ℚ) (firstIter : Bool)
    (posD posG posS : ℕ) (Gn : GMat) (Iv : IVec) (_t : ℚ)
    (tensoes : List ℚ) : Option (GMat × IVec × Bool) :=
  match tensoes.get? posD, tensoes.get? posG, tensoes.get? posS with
  | some vd0, some vg, some vs0 =>
    let swapped : ℚ × ℚ :=
      match tipo with
      | .nmos => if vd0 < vs0 then (vs0, vd0) else (vd0, vs0)
      | .pmos => if vd0 > vs0 then (vs0, vd0) else (vd0, vs0)
    let vd := swapped.1
    let vs := swapped.2
    let vgs : ℚ :=
      match tipo with
      | .nmos => if firstIter then 2 else vg - vs
      | .pmos => if firstIter then -2 else -(vg - vs)
    let vds : ℚ :=
      match tipo with
      | .nmos => vd - vs
      | .pmos => -(vd - vs)
    let regiao : ℚ × ℚ × ℚ :=
      if vgs ≤ vth then (0, 0, 0)
      else
        let vov := vgs - vth
        let termoLambda := 1 + lbda * vds
        if vds > vov then
          (beta * vov ^ 2 * termoLambda, 2 * beta * vov * termoLambda,
           beta * vov ^ 2 * lbda)
        else
          (beta * (2 * vov * vds - vds ^ 2) * termoLambda,
           beta * (2 * vds) * termoLambda,
           beta * (2 * vov - 2 * vds + 4 * lbda * vov * vds - 3 * lbda * vds ^ 2))
    let gm := regiao.2.1
    let gds := regiao.2.2
    let idCalc := match tipo with
      | .nmos => regiao.1
      | .pmos => -regiao.1
    let nivel := idCalc - gm * vgs - gds * vds
    let gi1 := fonteCorrenteTensaoEstampaBE gm posD posS posG posS Gn Iv
    let gi2 := fonteCorrenteEstampaDC nivel posD posS gi1.1 gi1.2
    let gi3 := if gds ≠ 0 then resistorEstampaBE (1 / gds) posD posS gi2.1 gi2.2
               else gi2
    some (gi3.1, gi3.2, false)
  | _, _, _ => none

/-- A Python value handed to `Circuito.append` / `circuito[i] = x`: either
a `Componente` instance or anything else (`isinstance` fails). -/
inductive PyObj where
  | comp (c : Componente)
  | outro (repr0 : String)
deriving DecidableEq

/-- Python list item assignment `lst[index] = x` with negative-index
wrap-around; out-of-range raises `IndexError`. -/
def pySetItem {α : Type} (l : List α) (index : ℤ) (x : α) :
    Except SimError (List α) :=
  if 0 ≤ index ∧ index < l.length then .ok (l.set index.toNat x)
  else if -(l.length : ℤ) ≤ index ∧ index < 0 then
    .ok (l.set (l.length + index).toNat x)
  else .error .indexOut

/-- `Circuito.append` (__init__.py lines 57-64): appends only when the
argument is a `Componente` instance; anything else is silently ignored. -/
def circuitoAppend (comps : List Componente) (x : PyObj) : List Componente :=
  match x with
  | .comp c => comps ++ [c]
  | .outro _ => comps

/-- `Circuito.__setitem__` (__init__.py lines 41-43): assigns only when
the argument is a `Componente` instance; anything else is silently
ignored (no exception, list unchanged). -/
def circuitoSetItem (comps : List Componente) (index : ℤ) (x : PyObj) :
    Except SimError (List Componente) :=
  match x with
  | .comp c => pySetItem comps index c
  | .outro _ => .ok comps

/-- The additive contribution the source's VCVS stamp makes to `Gn`,
entry by entry. -/
def vcvsDelta (valor : ℚ) (posA posB posC posD jx : ℕ) : GMat :=
  fun i j =>
    (if i = posA ∧ j = jx then (1 : ℚ) else 0) +
    (if i = posB ∧ j = jx then (-1 : ℚ) else 0) +
    (if i = jx ∧ j = posC then valor else 0) +
    (if i = jx ∧ j = posD then -valor else 0) +
    (if i = jx ∧ j = posA then (-1 : ℚ) else 0) +
    (if i = jx ∧ j = posB then (1 : ℚ) else 0)

theorem pymod_eq_mul_fract (x : ℚ) {y : ℚ} (hy : y ≠ 0) :
    pymod x y = y * Int.fract (x / y) := by
  unfold pymod Int.fract
  field_simp

theorem pymod_nonneg (x : ℚ) {y : ℚ} (hy : 0 < y) : 0 ≤ pymod x y := by
  rw [pymod_eq_mul_fract x hy.ne']
  exact mul_nonneg hy.le (Int.fract_nonneg _)

theorem pymod_lt (x : ℚ) {y : ℚ} (hy : 0 < y) : pymod x y < y := by
  rw [pymod_eq_mul_fract x hy.ne']
  calc y * Int.fract (x / y) < y * 1 :=
        (mul_lt_mul_left hy).2 (Int.fract_lt_one _)
    _ = y := mul_one y

theorem foldl_popularNosNo_snd (l : List String) (acc : List String × Bool) :
    (l.foldl popularNosNo acc).2 = (acc.2 || l.any (· == GND)) := by
  induction l generalizing acc with
  | nil => simp
  | cons x xs ih =>
    rw [List.foldl_cons, ih]
    simp [popularNosNo, Bool.or_assoc]

theorem foldl_popularNosComp_snd (comps : List Componente)
    (acc : List String × Bool) :
    (comps.foldl popularNosComp acc).2
      = (acc.2 || comps.any (fun c => c.nos.any (· == GND))) := by
  induction comps generalizing acc with
  | nil => simp
  | cons c cs ih =>
    rw [List.foldl_cons, ih]
    simp [popularNosComp, foldl_popularNosNo_snd, Bool.or_assoc]

theorem foldl_popularNosNo_fst (l : List String) (acc : List String × Bool) :
    ∃ s, (l.foldl popularNosNo acc).1 = acc.1 ++ s := by
  induction l generalizing acc with
  | nil => exact ⟨[], (List.append_nil _).symm⟩
  | cons x xs ih =>
    obtain ⟨s, hs⟩ := ih (popularNosNo acc x)
    rw [List.foldl_cons] at *
    by_cases hx : x ∈ acc.1
    · exact ⟨s, by rw [hs]; simp [popularNosNo, hx]⟩
    · exact ⟨x :: s, by rw [hs]; simp [popularNosNo, hx]⟩

theorem foldl_popularNosComp_fst (comps : List Componente)
    (acc : List String × Bool) :
    ∃ s, (comps.foldl popularNosComp acc).1 = acc.1 ++ s := by
  induction comps generalizing acc with
  | nil => exact ⟨[], (List.append_nil _).symm⟩
  | cons c cs ih =>
    obtain ⟨s1, hs1⟩ := foldl_popularNosNo_fst c.nos acc
    obtain ⟨s2, hs2⟩ := ih (popularNosComp acc c)
    rw [List.foldl_cons]
    refine ⟨s1 ++ s2, ?_⟩
    have h1 : (popularNosComp acc c).1 = acc.1 ++ s1 := hs1
    rw [hs2, h1, List.append_assoc]

theorem popularNos_any_eq (comps : List Componente) :
    (comps.any (fun c => c.nos.any (· == GND)) = true)
      ↔ ∃ c ∈ comps, GND ∈ c.nos := by
  simp [List.any_eq_true]

theorem popularNos_ok_iff (comps : List Componente) :
    (∃ nos, popularNos comps = .ok nos) ↔ ∃ c ∈ comps, GND ∈ c.nos := by
  rw [← popularNos_any_eq]
  simp only [popularNos, foldl_popularNosComp_snd, Bool.false_or]
  by_cases h : comps.any (fun c => c.nos.any (· == GND)) = true
  · simp [h]
  · simp [h]

theorem popularNos_head {comps : List Componente} {nos : List String}
    (h : popularNos comps = .ok nos) :
    nos.head? = some GND ∧ nos.indexOf GND = 0 := by
  obtain ⟨s, hs⟩ := foldl_popularNosComp_fst comps ([GND], false)
  simp only [popularNos] at h
  by_cases hc : (comps.foldl popularNosComp ([GND], false)).2 = true
  · rw [if_pos hc] at h
    injection h with h
    rw [← h, hs, List.singleton_append]
    exact ⟨rfl, List.indexOf_cons_self _ _⟩
  · rw [if_neg hc] at h
    cases h

theorem run_error_missingGround {H : Type}
    (solve : H → ℚ → ℚ → List ℚ → Except SimError (List ℚ))
    (updAll : H → List ℚ → H) (randF : ℕ → ℕ → ℕ → List ℚ) (oF nF : ℕ)
    (comps : List Componente) (tipo : TipoSim) (tT passo : ℚ) (pI : ℕ)
    (h0 : H) (rng : ℕ × ℕ) (h : ¬ ∃ c ∈ comps, GND ∈ c.nos) :
    run solve updAll randF oF nF comps tipo tT passo pI h0 rng
      = .error .missingGround := by
  have hany : comps.any (fun c => c.nos.any (· == GND)) = false := by
    cases hb : comps.any (fun c => c.nos.any (· == GND))
    · rfl
    · exact absurd ((popularNos_any_eq comps).1 hb) h
  have hp : popularNos comps = .error .missingGround := by
    simp [popularNos, foldl_popularNosComp_snd, hany]
  simp only [run, hp]

/-- C5: `Circuito.run` fails with `MissingGround` exactly when no component
references the node label `"0"`: node discovery succeeds iff some
component lists ground, on success ground is the head of the node list
(index 0 of the system vector), and without ground `run` returns the
`MissingGround` error for every solver, updater and random stream — i.e.
before any stamping or solving. -/
theorem c5_missing_ground :
    (∀ comps : List Componente,
        (∃ nos, popularNos comps = .ok nos) ↔ ∃ c ∈ comps, GND ∈ c.nos) ∧
    (∀ (comps : List Componente) (nos : List String),
        popularNos comps = .ok nos →
        nos.head? = some GND ∧ nos.indexOf GND = 0) ∧
    (∀ (H : Type) (solve : H → ℚ → ℚ → List ℚ → Except SimError (List ℚ))
        (updAll : H → List ℚ → H) (randF : ℕ → ℕ → ℕ → List ℚ) (oF nF : ℕ)
        (comps : List Componente) (tipo : TipoSim) (tT passo : ℚ) (pI : ℕ)
        (h0 : H) (rng : ℕ × ℕ), (¬ ∃ c ∈ comps, GND ∈ c.nos) →
        run solve updAll randF oF nF comps tipo tT passo pI h0 rng
          = .error .missingGround) :=
  ⟨popularNos_ok_iff, fun _ _ h => popularNos_head h,
   fun _ solve updAll randF oF nF comps tipo tT passo pI h0 rng h =>
     run_error_missingGround solve updAll randF oF nF comps tipo tT passo pI
       h0 rng h⟩

/-- Witness for C5: on the circuit `[R1 (1,0)]` node discovery yields
`["0", "1"]` with ground at index 0; on the groundless circuit
`[R1 (1,2)]`, `run` fails with `MissingGround`. -/
theorem c5_missing_ground_witness :
    ((["0", "1"] : List String).head? = some GND ∧
      (["0", "1"] : List String).indexOf GND = 0) ∧
    run (H := Unit) (fun _ _ _ _ => .ok []) (fun _ _ => ()) (fun _ _ _ => [])
        1 1 [Componente.resistor "1" ["1", "2"] 1] .be 1 1 1 () (0, 0)
      = .error .missingGround :=
  ⟨c5_missing_ground.2.1 [Componente.resistor "1" ["1", "0"] 1] ["0", "1"] rfl,
   c5_missing_ground.2.2 Unit (fun _ _ _ _ => .ok []) (fun _ _ => ())
     (fun _ _ _ => []) 1 1 [Componente.resistor "1" ["1", "2"] 1] .be 1 1 1 ()
     (0, 0) (by decide)⟩

theorem newtonLoop_fe_trap {H : Type}
    (solve : H → ℚ → ℚ → List ℚ → Except SimError (List ℚ))
    (randF : ℕ → ℕ → ℕ → List ℚ) (seed : ℕ) (naoLinear : Bool) (numVars : ℕ)
    (tipo : TipoSim) (temComp : Bool) (hist : H) (passoCur tempo : ℚ)
    (nFuel : ℕ) (st : NState) (ht : tipo = .fe ∨ tipo = .trap)
    (htemp : temComp = true) (hn : st.nNewton = 0) :
    newtonLoop solve randF seed naoLinear numVars tipo temComp hist passoCur
      tempo (nFuel + 1) st = .error .notImplemented := by
  have hcond : ¬(naoLinear = true ∧ st.nNewton = N_MAX) := by
    rintro ⟨_, h2⟩
    rw [hn] at h2
    exact absurd h2 (by decide)
  rw [newtonLoop, if_neg hcond]
  rcases ht with rfl | rfl <;> simp [montaResolve, htemp]

theorem innerLoop_fe_trap {H : Type}
    (solve : H → ℚ → ℚ → List ℚ → Except SimError (List ℚ))
    (updAll : H → List ℚ → H) (randF : ℕ → ℕ → ℕ → List ℚ) (nF : ℕ)
    (naoLinear : Bool) (numVars : ℕ) (tipo : TipoSim) (temComp : Bool)
    (passoCur tempo : ℚ) (k : ℕ) (s : IState H)
    (ht : tipo = .fe ∨ tipo = .trap) (htemp : temComp = true) :
    innerLoop solve updAll randF (nF + 1) naoLinear numVars tipo temComp
      passoCur tempo (k + 1) s = .error .notImplemented := by
  rw [innerLoop, newtonLoop_fe_trap solve randF 512 naoLinear numVars tipo
    temComp s.hist passoCur tempo nF ⟨s.previous, 0, 0, s.ctr⟩ ht htemp rfl]

theorem outerLoop_fe_trap {H : Type}
    (solve : H → ℚ → ℚ → List ℚ → Except SimError (List ℚ))
    (updAll : H → List ℚ → H) (randF : ℕ → ℕ → ℕ → List ℚ) (nF : ℕ)
    (naoLinear : Bool) (numVars nosLen : ℕ) (tipo : TipoSim) (temComp : Bool)
    (tempoTotal passo : ℚ) (oF : ℕ) (s : OState H) (hs0 : s.tempo = 0)
    (hrun : s.tempo < tempoTotal) (ht : tipo = .fe ∨ tipo = .trap)
    (htemp : temComp = true) :
    outerLoop solve updAll randF (nF + 1) naoLinear numVars nosLen tipo
      temComp tempoTotal passo (oF + 1) s = .error .notImplemented := by
  rw [outerLoop, if_pos hrun]
  simp only [hs0, eq_self_iff_true, if_true]
  have h := innerLoop_fe_trap solve updAll randF nF naoLinear numVars tipo
    temComp (passo / STEP_FACTOR) 0 0
    ⟨randF 512 s.ctr numVars, s.ctr + 1, s.hist, [], 0⟩ ht htemp
  norm_num at h
  rw [h]

theorem run_fe_trap_error {H : Type}
    (solve : H → ℚ → ℚ → List ℚ → Except SimError (List ℚ))
    (updAll : H → List ℚ → H) (randF : ℕ → ℕ → ℕ → List ℚ) (oF nF : ℕ)
    (comps : List Componente) (tipo : TipoSim) (tT passo : ℚ) (pI : ℕ)
    (h0 : H) (rng : ℕ × ℕ) (hg : ∃ c ∈ comps, GND ∈ c.nos)
    (ht : tipo = .fe ∨ tipo = .trap) (hT : 0 < tT) :
    run solve updAll randF (oF + 1) (nF + 1) comps tipo tT passo pI h0 rng
      = .error .notImplemented := by
  obtain ⟨nos, hnos⟩ := (popularNos_ok_iff comps).2 hg
  have htemp : (!comps.isEmpty) = true := by
    obtain ⟨c, hc, _⟩ := hg
    cases comps
    · cases hc
    · rfl
  simp only [run, hnos]
  rw [outerLoop_fe_trap solve updAll randF nF _ _ _ tipo _ tT passo oF
    ⟨0, 0, h0, 0, [], [], []⟩ rfl hT ht htemp]

/-- C6: the `FE` and `TRAP` stamps are never implemented: for every
component variant `estampaFE` and `estampaTrap` raise
`NotImplementedError` (the base-class methods, overridden nowhere), and a
run with integration method `FE` or `TRAP` on any circuit that reaches
stamping (ground present, positive total time) fails with that error at
the first stamping attempt, whatever the solver, updater and random
stream. -/
theorem c6_fe_trap_unimplemented :
    (∀ (c : Componente) (Gn : GMat) (Iv : IVec) (t : ℚ) (tens : List ℚ),
        c.estampaFE Gn Iv t tens = .error .notImplemented ∧
        c.estampaTrap Gn Iv t tens = .error .notImplemented) ∧
    (∀ (H : Type) (solve : H → ℚ → ℚ → List ℚ → Except SimError (List ℚ))
        (updAll : H → List ℚ → H) (randF : ℕ → ℕ → ℕ → List ℚ) (oF nF : ℕ)
        (comps : List Componente) (tipo : TipoSim) (tT passo : ℚ) (pI : ℕ)
        (h0 : H) (rng : ℕ × ℕ), (∃ c ∈ comps, GND ∈ c.nos) →
        (tipo = .fe ∨ tipo = .trap) → 0 < tT →
        run solve updAll randF (oF + 1) (nF + 1) comps tipo tT passo pI h0 rng
          = .error .notImplemented) :=
  ⟨fun _ _ _ _ _ => ⟨rfl, rfl⟩,
   fun _ solve updAll randF oF nF comps tipo tT passo pI h0 rng hg ht hT =>
     run_fe_trap_error solve updAll randF oF nF comps tipo tT passo pI h0 rng
       hg ht hT⟩

/-- Witness for C6: a one-resistor circuit with method `FE` fails with the
unimplemented-stamp error. -/
theorem c6_fe_trap_unimplemented_witness :
    run (H := Unit) (fun _ _ _ _ => .ok []) (fun _ _ => ()) (fun _ _ _ => [])
        1 1 [Componente.resistor "1" ["1", "0"] 1] .fe 1 1 1 () (0, 0)
      = .error .notImplemented :=
  c6_fe_trap_unimplemented.2 Unit (fun _ _ _ _ => .ok []) (fun _ _ => ())
    (fun _ _ _ => []) 0 0 [Componente.resistor "1" ["1", "0"] 1] .fe 1 1 1 ()
    (0, 0) (by decide) (Or.inl rfl) (by norm_num)

theorem resAppend_ok_iff {nosLen : ℕ} {rt : List ℚ} {rv : List (List ℚ)}
    {t : ℚ} {v : List ℚ} {out : List ℚ × List (List ℚ)}
    (h : resAppend nosLen rt rv t v = .ok out) :
    v.length = nosLen ∧ out = (rt ++ [t], rv ++ [v]) := by
  by_cases hv : v.length = nosLen
  · rw [resAppend, if_pos hv] at h
    injection h with h
    exact ⟨hv, h.symm⟩
  · rw [resAppend, if_neg hv] at h
    cases h

theorem outerLoop_resV_inv {H : Type}
    (solve : H → ℚ → ℚ → List ℚ → Except SimError (List ℚ))
    (updAll : H → List ℚ → H) (randF : ℕ → ℕ → ℕ → List ℚ) (nFuel : ℕ)
    (naoLinear : Bool) (numVars nosLen : ℕ) (tipo : TipoSim) (temComp : Bool)
    (tempoTotal passo : ℚ) :
    ∀ (fuel : ℕ) (s s' : OState H),
      outerLoop solve updAll randF nFuel naoLinear numVars nosLen tipo temComp
          tempoTotal passo fuel s = .ok s' →
      (∀ v ∈ s.resV, v.length = nosLen) → ∀ v ∈ s'.resV, v.length = nosLen := by
  intro fuel
  induction fuel with
  | zero =>
    intro s s' h hs
    rw [outerLoop] at h
    by_cases hc : s.tempo < tempoTotal
    · rw [if_pos hc] at h
      cases h
    · rw [if_neg hc] at h
      injection h with h
      rw [← h]
      exact hs
  | succ f ih =>
    intro s s' h hs
    rw [outerLoop] at h
    by_cases hc : s.tempo < tempoTotal
    · rw [if_pos hc] at h
      dsimp only at h
      split at h
      · cases h
      · rename_i is heq1
        split at h
        · cases h
        · rename_i rs heq2
          obtain ⟨hvlen, hout⟩ := resAppend_ok_iff heq2
          refine ih _ _ h ?_
          intro v hv
          dsimp only at hv
          rw [hout] at hv
          rcases List.mem_append.1 hv with h1 | h1
          · exact hs v h1
          · rw [List.mem_singleton.1 h1]
            exact hvlen
    · rw [if_neg hc] at h
      injection h with h
      rw [← h]
      exact hs

theorem run_ok_resV {H : Type}
    (solve : H → ℚ → ℚ → List ℚ → Except SimError (List ℚ))
    (updAll : H → List ℚ → H) (randF : ℕ → ℕ → ℕ → List ℚ) (oF nF : ℕ)
    (comps : List Componente) (tipo : TipoSim) (tT passo : ℚ) (pI : ℕ)
    (h0 : H) (rng : ℕ × ℕ) (out : RunOut)
    (h : run solve updAll randF oF nF comps tipo tT passo pI h0 rng = .ok out) :
    ∀ v ∈ out.resV, v.length = out.nosRes.length := by
  simp only [run] at h
  split at h
  · cases h
  · rename_i nos hnos
    split at h
    · cases h
    · rename_i s hs
      injection h with h
      rw [← h]
      exact outerLoop_resV_inv solve updAll randF nF _ _ _ tipo _ tT passo oF
        _ s hs (fun v hv => absurd hv (List.not_mem_nil v))

/-- C8: `Resultado.append` accepts exactly the vectors whose length equals
the stored node-list length (asserting otherwise), and every voltage
vector in the trajectory of a completed `run` has length equal to the
result's node-list length, which `run` builds as the full index space
minus ground (`N_total − 1`). -/
theorem c8_sample_lengths :
    (∀ (nosLen : ℕ) (rt : List ℚ) (rv : List (List ℚ)) (t : ℚ) (v : List ℚ)
        (out : List ℚ × List (List ℚ)),
        resAppend nosLen rt rv t v = .ok out → v.length = nosLen) ∧
    (∀ (nosLen : ℕ) (rt : List ℚ) (rv : List (List ℚ)) (t : ℚ) (v : List ℚ),
        v.length ≠ nosLen →
        resAppend nosLen rt rv t v = .error .assertionFailed) ∧
    (∀ (H : Type) (solve : H → ℚ → ℚ → List ℚ → Except SimError (List ℚ))
        (updAll : H → List ℚ → H) (randF : ℕ → ℕ → ℕ → List ℚ) (oF nF : ℕ)
        (comps : List Componente) (tipo : TipoSim) (tT passo : ℚ) (pI : ℕ)
        (h0 : H) (rng : ℕ × ℕ) (out : RunOut),
        run solve updAll randF oF nF comps tipo tT passo pI h0 rng = .ok out →
        ∀ v ∈ out.resV, v.length = out.nosRes.length) :=
  ⟨fun _ _ _ _ _ _ h => (resAppend_ok_iff h).1,
   fun _ _ _ _ _ h => by rw [resAppend, if_neg h],
   fun _ solve updAll randF oF nF comps tipo tT passo pI h0 rng out h =>
     run_ok_resV solve updAll randF oF nF comps tipo tT passo pI h0 rng out h⟩

/-- Witness for C8: a completed two-step run of a one-resistor circuit has
a first sample of length 1, the length of its node list without ground. -/
theorem c8_sample_lengths_witness :
    ([(0 : ℚ)] : List ℚ).length = (["1"] : List String).length :=
  c8_sample_lengths.2.2 Unit (fun _ _ _ _ => .ok [0]) (fun _ _ => ())
    (fun _ _ n => List.replicate n 0) 3 2
    [Componente.resistor "2" ["1", "0"] 1] .be 2 1 1 () (0, 0)
    ⟨["1"], [0, 1], [[0], [0]],
      [⟨0, 1 / 1000000000, 1⟩, ⟨1, 1, 1⟩]⟩ rfl [0] (by decide)

/-- C2 (amended): one unfolding of the Newton–Raphson driver.  When no
re-seed is due, the driver accepts `x = 0 :: y` exactly when the circuit
is linear or `δ ≤ 1e−5`, where `δ` is the maximum of `|x[k] − guess[k]|`
over the ZIPPED prefix of `x` and the guess (at the first iteration of a
step the guess is the raw random vector of length `N_total − 1`, so the
last entry of `x` is not compared and the indices are offset); otherwise
it continues with `guess = x`.  When the iteration count reaches
`N_MAX = 20` it re-seeds with the next random vector and resets the
count, and once 100 re-seeds have occurred (so the 101st guess has also
failed, exceeding `M_MAX = 100` total guesses) it fails with
`NewtonDiverged`. -/
theorem c2_newton_driver {H : Type}
    (solve : H → ℚ → ℚ → List ℚ → Except SimError (List ℚ))
    (randF : ℕ → ℕ → ℕ → List ℚ) (seed : ℕ) (naoLinear : Bool)
    (numVars : ℕ) (tipo : TipoSim) (temComp : Bool) (hist : H)
    (passoCur tempo : ℚ) (fuel : ℕ) :
    (∀ (st : NState) (y : List ℚ),
        ¬(naoLinear = true ∧ st.nNewton = N_MAX) →
        montaResolve solve tipo temComp hist passoCur tempo st.previous
          = .ok y →
        newtonLoop solve randF seed naoLinear numVars tipo temComp hist
            passoCur tempo (fuel + 1) st
          = if naoLinear = true ∧ tolOf (0 :: y) st.previous > TOLERANCIA then
              newtonLoop solve randF seed naoLinear numVars tipo temComp hist
                passoCur tempo fuel
                ⟨0 :: y, st.nGuesses, st.nNewton + 1, st.ctr⟩
            else .ok (0 :: y, st)) ∧
    (∀ st : NState, naoLinear = true → st.nNewton = N_MAX →
        st.nGuesses < M_MAX →
        newtonLoop solve randF seed naoLinear numVars tipo temComp hist
            passoCur tempo (fuel + 1) st
          = newtonLoop solve randF seed naoLinear numVars tipo temComp hist
            passoCur tempo (fuel + 1)
            ⟨randF seed st.ctr numVars, st.nGuesses + 1, 0, st.ctr + 1⟩) ∧
    (∀ st : NState, naoLinear = true → st.nNewton = N_MAX →
        M_MAX ≤ st.nGuesses →
        newtonLoop solve randF seed naoLinear numVars tipo temComp hist
          passoCur tempo (fuel + 1) st = .error .newtonDiverged) := by
  refine ⟨?_, ?_, ?_⟩
  · intro st y h1 h2
    rw [newtonLoop, if_neg h1]
    dsimp only
    rw [h2]
  · intro st hl hn hg
    rw [newtonLoop, if_pos ⟨hl, hn⟩, if_neg (not_le.mpr hg)]
    conv_rhs => rw [newtonLoop]
    rw [if_neg (show ¬(naoLinear = true ∧
        (⟨randF seed st.ctr numVars, st.nGuesses + 1, 0, st.ctr + 1⟩ :
          NState).nNewton = N_MAX) from fun hc => by
      have := hc.2
      simp [N_MAX] at this)]
  · intro st hl hn hg
    rw [newtonLoop, if_pos ⟨hl, hn⟩, if_pos hg]

/-- Witness for C2: a nonlinear circuit whose iteration count has reached
`N_MAX` with the guess count at `M_MAX` fails with `NewtonDiverged`. -/
theorem c2_newton_driver_witness :
    newtonLoop (H := Unit) (fun _ _ _ _ => .ok []) (fun _ _ _ => []) 512 true
      1 .be true () 1 0 1 ⟨[], 100, 20, 0⟩ = .error .newtonDiverged :=
  (c2_newton_driver (fun _ _ _ _ => .ok []) (fun _ _ _ => []) 512 true 1 .be
    true () 1 0 0).2.2 ⟨[], 100, 20, 0⟩ rfl rfl (by decide)

/-- C9 (amended): the diode and MOSFET stamps read the guess only at their
bound terminal positions, and a read is within bounds exactly when each
position is below the guess's length (conjuncts 1-4).  Within a step the
guess passed to the stamps is a short random vector (length
`N_total − 1`, no ground entry) at the first Newton iteration and again
at every re-seed — when the iteration count of a nonlinear circuit has
reached `N_MAX`, the driver continues from a state whose guess is the
freshly drawn `rand(num_vars)` vector (conjunct 6); every other
iteration receives the previous solve `x = 0 :: y`, of length `N_total`
with entry 0 equal to 0 (conjunct 5), so its reads at bound positions
`< N_total` are in bounds, while on the short guesses a bound position
equal to `N_total − 1` reads out of bounds (see the counterexample). -/
theorem c9_guess_indexing {H : Type}
    (solve : H → ℚ → ℚ → List ℚ → Except SimError (List ℚ))
    (randF : ℕ → ℕ → ℕ → List ℚ) (seed : ℕ) (naoLinear : Bool)
    (numVars : ℕ) (tipo : TipoSim) (temComp : Bool) (hist : H)
    (passoCur tempo : ℚ) (fuel : ℕ) :
    (∀ (expQ : ℚ → ℚ) (pA pB : ℕ) (Gn : GMat) (Iv : IVec) (t : ℚ)
        (tens : List ℚ), pA < tens.length → pB < tens.length →
        (diodoEstampaBE expQ pA pB Gn Iv t tens).isSome = true) ∧
    (∀ (mt : MosTipo) (beta lbda vth : ℚ) (fi : Bool) (pD pG pS : ℕ)
        (Gn : GMat) (Iv : IVec) (t : ℚ) (tens : List ℚ),
        pD < tens.length → pG < tens.length → pS < tens.length →
        (mosfetEstampaBE mt beta lbda vth fi pD pG pS Gn Iv t tens).isSome
          = true) ∧
    (∀ (expQ : ℚ → ℚ) (pA pB : ℕ) (Gn : GMat) (Iv : IVec) (t : ℚ)
        (tens : List ℚ), tens.length ≤ pA ∨ tens.length ≤ pB →
        diodoEstampaBE expQ pA pB Gn Iv t tens = none) ∧
    (∀ (mt : MosTipo) (beta lbda vth : ℚ) (fi : Bool) (pD pG pS : ℕ)
        (Gn : GMat) (Iv : IVec) (t : ℚ) (tens : List ℚ),
        tens.length ≤ pD ∨ tens.length ≤ pG ∨ tens.length ≤ pS →
        mosfetEstampaBE mt beta lbda vth fi pD pG pS Gn Iv t tens = none) ∧
    (∀ (st : NState) (y : List ℚ),
        ¬(naoLinear = true ∧ st.nNewton = N_MAX) →
        montaResolve solve tipo temComp hist passoCur tempo st.previous
          = .ok y →
        y.length = numVars →
        (0 :: y).length = numVars + 1 ∧ (0 :: y).head? = some 0 ∧
          (newtonLoop solve randF seed naoLinear numVars tipo temComp hist
              passoCur tempo (fuel + 1) st = .ok (0 :: y, st) ∨
           newtonLoop solve randF seed naoLinear numVars tipo temComp hist
              passoCur tempo (fuel + 1) st
             = newtonLoop solve randF seed naoLinear numVars tipo temComp hist
               passoCur tempo fuel
               ⟨0 :: y, st.nGuesses, st.nNewton + 1, st.ctr⟩)) ∧
    (∀ st : NState, naoLinear = true → st.nNewton = N_MAX →
        st.nGuesses < M_MAX →
        newtonLoop solve randF seed naoLinear numVars tipo temComp hist
            passoCur tempo (fuel + 1) st
          = newtonLoop solve randF seed naoLinear numVars tipo temComp hist
            passoCur tempo (fuel + 1)
            ⟨randF seed st.ctr numVars, st.nGuesses + 1, 0, st.ctr + 1⟩) := by
  refine ⟨?_, ?_, ?_, ?_, ?_, ?_⟩
  · intro expQ pA pB Gn Iv t tens hA hB
    rw [diodoEstampaBE, List.get?_eq_get hA, List.get?_eq_get hB]
    rfl
  · intro mt beta lbda vth fi pD pG pS Gn Iv t tens hD hG hS
    rw [mosfetEstampaBE, List.get?_eq_get hD, List.get?_eq_get hG,
      List.get?_eq_get hS]
    rfl
  · intro expQ pA pB Gn Iv t tens h
    cases h1 : tens.get? pA with
    | none => rw [diodoEstampaBE, h1]
    | some v1 =>
      cases h2 : tens.get? pB with
      | none => rw [diodoEstampaBE, h1, h2]
      | some v2 =>
        exfalso
        rcases h with h | h
        · rw [List.get?_eq_none.mpr h] at h1
          cases h1
        · rw [List.get?_eq_none.mpr h] at h2
          cases h2
  · intro mt beta lbda vth fi pD pG pS Gn Iv t tens h
    cases h1 : tens.get? pD with
    | none => rw [mosfetEstampaBE, h1]
    | some v1 =>
      cases h2 : tens.get? pG with
      | none => rw [mosfetEstampaBE, h1, h2]
      | some v2 =>
        cases h3 : tens.get? pS with
        | none => rw [mosfetEstampaBE, h1, h2, h3]
        | some v3 =>
          exfalso
          rcases h with h | h | h
          · rw [List.get?_eq_none.mpr h] at h1
            cases h1
          · rw [List.get?_eq_none.mpr h] at h2
            cases h2
          · rw [List.get?_eq_none.mpr h] at h3
            cases h3
  · intro st y h1 h2 hy
    refine ⟨by rw [List.length_cons, hy], rfl, ?_⟩
    rw [newtonLoop, if_neg h1]
    dsimp only
    rw [h2]
    dsimp only
    by_cases hc : naoLinear = true ∧ tolOf (0 :: y) st.previous > TOLERANCIA
    · exact Or.inr (by rw [if_pos hc])
    · exact Or.inl (by rw [if_neg hc])
  · intro st hl hn hg
    rw [newtonLoop, if_pos ⟨hl, hn⟩, if_neg (not_le.mpr hg)]
    conv_rhs => rw [newtonLoop]
    rw [if_neg (show ¬(naoLinear = true ∧
        (⟨randF seed st.ctr numVars, st.nGuesses + 1, 0, st.ctr + 1⟩ :
          NState).nNewton = N_MAX) from fun hc => by
      have := hc.2
      simp [N_MAX] at this)]

/-- Witness for C9: a two-entry guess read by a diode bound at positions
1 and 0 is in bounds. -/
theorem c9_guess_indexing_witness :
    (diodoEstampaBE (fun _ => 1) 1 0 zeroG zeroI 0 [1 / 2, 3]).isSome
      = true :=
  (c9_guess_indexing (H := Unit) (fun _ _ _ _ => .ok []) (fun _ _ _ => [])
    512 true 1 .be true () 1 0 0).1 (fun _ => 1) 1 0 zeroG zeroI 0 [1 / 2, 3]
    (by decide) (by decide)

/-- C4: for every parameter tuple (with a positive period, without which
the source's `%` raises) and every time `t`, the PULSE evaluator of
`Componente.calcular_valor_fonte` returns exactly the piecewise waveform
stated by the specification: `v1` before the delay and after `cycles`
periods, otherwise the ramp `v1 → v2` on `[0, t_rise')`, `v2` on
`[t_rise', t_rise' + t_on)`, the ramp `v2 → v1` on the next `t_fall'`,
and `v1` on the remainder, with `t_rise'`/`t_fall'` defaulting to the
current step size when nonpositive. -/
theorem c4_pulse_matches_spec (p : PulseP) (hper : 0 < p.periodo)
    (passo t : ℚ) :
    calcularValorFontePulse p passo t = pulseSpec p passo t := by
  unfold calcularValorFontePulse pulseSpec
  dsimp only
  by_cases h1 : t < p.atraso
  · rw [if_pos h1, if_pos h1]
  · rw [if_neg h1, if_neg h1]
    by_cases h2 : p.ciclos > 0 ∧ t ≥ p.atraso + p.ciclos * p.periodo
    · rw [if_pos h2, if_pos h2]
    · rw [if_neg h2, if_neg h2]
      have h0 : 0 ≤ pymod (t - p.atraso) p.periodo := pymod_nonneg _ hper
      set tau := pymod (t - p.atraso) p.periodo with htau
      set tr := if p.tempoSubida > 0 then p.tempoSubida else passo with htr
      set tf := if p.tempoDescida > 0 then p.tempoDescida else passo with htf
      by_cases h3 : tau < tr
      · rw [if_pos h3, if_pos ⟨h0, h3⟩]
      · rw [if_neg h3,
          if_neg (show ¬(0 ≤ tau ∧ tau < tr) from fun hc => h3 hc.2)]
        push_neg at h3
        by_cases h4 : tau < tr + p.tempoLigado
        · rw [if_pos h4, if_pos ⟨h3, h4⟩]
        · rw [if_neg h4,
            if_neg (show ¬(tr ≤ tau ∧ tau < tr + p.tempoLigado) from
              fun hc => h4 hc.2)]
          push_neg at h4
          by_cases h5 : tau < tr + p.tempoLigado + tf
          · rw [if_pos h5, if_pos ⟨h4, h5⟩]; ring
          · rw [if_neg h5,
              if_neg (show ¬(tr + p.tempoLigado ≤ tau ∧
                  tau < tr + p.tempoLigado + tf) from fun hc => h5 hc.2)]

/-- Witness for C4 at a concrete parameter tuple and time. -/
theorem c4_pulse_matches_spec_witness :
    calcularValorFontePulse ⟨0, 5, 0, 1 / 4, 1 / 4, 1 / 4, 1, 0⟩ 1 (3 / 8) =
      pulseSpec ⟨0, 5, 0, 1 / 4, 1 / 4, 1 / 4, 1, 0⟩ 1 (3 / 8) :=
  c4_pulse_matches_spec _ (by norm_num) 1 (3 / 8)

/-- C3 (amended): the VCVS stamp adds exactly
`G[a,jx]+=1; G[b,jx]-=1; G[jx,c]+=µ; G[jx,d]-=µ; G[jx,a]-=1; G[jx,b]+=1`
to the conductance matrix (note the signs of the first two entries, which
the claim states flipped) and leaves the current vector unchanged. -/
theorem c3_vcvs_stamp (valor : ℚ) (a b c d jx : ℕ) (Gn : GMat) (Iv : IVec)
    (i j : ℕ) :
    (fonteTensaoTensaoEstampaBE valor a b c d jx Gn Iv).1 i j
        = Gn i j + vcvsDelta valor a b c d jx i j ∧
      (fonteTensaoTensaoEstampaBE valor a b c d jx Gn Iv).2 = Iv := by
  refine ⟨?_, rfl⟩
  simp only [fonteTensaoTensaoEstampaBE, vcvsDelta, addG]
  split_ifs <;> ring

/-- Counterexample for C3 as stated: with terminals `a=1, b=2`, controls
`c=3, d=0`, auxiliary index `jx=4` and gain `2`, starting from the zero
matrix, the source stamps `G[1,4] = +1`, not the `−1` the claim's
`G[a,jx] −= 1` would give. -/
theorem c3_counterexample :
    (fonteTensaoTensaoEstampaBE 2 1 2 3 0 4 zeroG zeroI).1 1 4 = 1 ∧
      ((1 : ℚ) ≠ -1) := by
  constructor
  · norm_num [fonteTensaoTensaoEstampaBE, addG, zeroG]
  · norm_num

/-- C7: `Circuito.run` re-seeds the random stream with the fixed seed 512
on entry, so its result does not depend on the ambient random-generator
state: two executions from arbitrary generator states coincide. -/
theorem c7_run_deterministic {H : Type}
    (solve : H → ℚ → ℚ → List ℚ → Except SimError (List ℚ))
    (updAll : H → List ℚ → H) (randF : ℕ → ℕ → ℕ → List ℚ)
    (oFuel nFuel : ℕ) (comps : List Componente) (tipo : TipoSim)
    (tempoTotal passo : ℚ) (passoInterno : ℕ) (hist0 : H)
    (rng1 rng2 : ℕ × ℕ) :
    run solve updAll randF oFuel nFuel comps tipo tempoTotal passo
        passoInterno hist0 rng1 =
      run solve updAll randF oFuel nFuel comps tipo tempoTotal passo
        passoInterno hist0 rng2 := rfl

/-- C10: `Circuito.append` and `circuito[i] = x` change the component list
only for `Componente` instances; any other value is ignored silently (no
exception, list unchanged), while a `Componente` is actually appended. -/
theorem c10_append_setitem_guard :
    (∀ (comps : List Componente) (s : String),
        circuitoAppend comps (.outro s) = comps ∧
        ∀ i : ℤ, circuitoSetItem comps i (.outro s) = .ok comps) ∧
      ∀ (comps : List Componente) (c : Componente),
        circuitoAppend comps (.comp c) = comps ++ [c] :=
  ⟨fun _ _ => ⟨rfl, fun _ => rfl⟩, fun _ _ => rfl⟩

/-- C1: evaluating the embedded `run` on a concrete circuit (one resistor
between nodes 1 and 0, `tempo_total = 2`, `passo = 1`,
`passo_interno = 3`): the `t = 0` step uses `passo / 1e9` and one inner
sub-solve as claimed, but the second recorded step also executes exactly
`1` inner sub-solve, not `passo_interno = 3` — `max_internal_step` is
assigned only in the `tempo == 0` branch of `run` (line 131) and never
set to `self.passo_interno`. -/
theorem c1_inner_steps_stuck_at_one :
    (run (H := Unit) (fun _ _ _ _ => .ok [0]) (fun _ _ => ())
        (fun _ _ n => List.replicate n (1 / 2)) 3 2
        [Componente.resistor "1" ["1", "0"] 1] .be 2 1 3 () (0, 0)).map
        (fun o => o.trace)
      = .ok [⟨0, 1 / 1000000000, 1⟩, ⟨1, 1, 1⟩] ∧ (1 : ℕ) ≠ 3 :=
  ⟨rfl, by decide⟩

/-- Counterexample for C2 as stated: at a first Newton iteration the guess
is the raw random vector (here `[0, 0]`, length `N_total − 1 = 2`) while
the solved vector `x = [0, 0, 9]` has length 3; the driver's
`max([abs(i-j) for i, j in zip(tensoes, previous)])` covers only the
zipped prefix and evaluates to `0`, so the nonlinear driver accepts, even
though the maximum over ALL entries of `x` is `9 > 1e−5`. -/
theorem c2_counterexample :
    newtonLoop (H := Unit) (fun _ _ _ _ => .ok [0, 9]) (fun _ _ _ => [])
        512 true 2 .be true () 1 0 1 ⟨[0, 0], 0, 0, 0⟩
      = .ok ([0, 0, 9], ⟨[0, 0], 0, 0, 0⟩) ∧
    ¬(claimDelta [0, 0, 9] [0, 0] ≤ TOLERANCIA) ∧
    ([0, 0, 9] : List ℚ).length ≠ ([0, 0] : List ℚ).length :=
  ⟨rfl, by decide, by decide⟩

/-- Counterexample for C9 as stated: in the circuit
`[I1 (1,0) DC, D (1,0)]` node discovery succeeds, there are no auxiliary
variables, so `N_total = 2` and the diode's terminal positions are
`[1, 0]`; the first Newton guess has length `N_total − 1 = 1`, and the
diode stamp's read `tensoes[1]` is out of bounds (Python `IndexError`). -/
theorem c9_counterexample :
    popularNos [Componente.fonteCorrente "1" ["1", "0"] (.dc 1),
        Componente.diodo "D" ["1", "0"]] = .ok ["0", "1"] ∧
    (bindComps [Componente.fonteCorrente "1" ["1", "0"] (.dc 1),
        Componente.diodo "D" ["1", "0"]] ["0", "1"]).2.length - 1 = 1 ∧
    (bindComps [Componente.fonteCorrente "1" ["1", "0"] (.dc 1),
        Componente.diodo "D" ["1", "0"]] ["0", "1"]).1.map Bound.pos
      = [[1, 0], [1, 0]] ∧
    diodoEstampaBE (fun _ => 0) 1 0 zeroG zeroI 0 [1 / 2] = none :=
  ⟨rfl, rfl, rfl, rfl⟩

end Simulador
